import Mathlib

/-!
Verification of the food/foraging and visibility subsystems of the
`meta-control-self-organized-criticality` repository.

Sources embedded (shallow embedding; Python floats are modelled as `ℚ` where
the code is pure arithmetic and as `ℝ` where trigonometric functions appear):
  * `src/events/FoodEvent.py` (class `FoodEvent`)
  * `src/model/VicsekIndividualsMultiSwitchOscillationFood.py`
    (class `VicsekWithNeighbourSelectionOscillationFood`, abbreviated to the
    namespace `FoodModel` here)
  * `src/services/ServiceVision.py`
`ServiceVicsekHelper.py` and `ServiceOrientations.py` are not among the
sources; the pieces of them that the embedded code consumes are modelled from
the specification and marked as such in their doc comments.
-/

set_option maxHeartbeats 1600000

namespace ServiceVicsekHelper

/-- Modelled from the spec: `ServiceVicsekHelper.getDifferences` is not under
`src/`; section 4.1 of the specification prescribes, per axis, the minimal
wrapped difference `d - L*round(d/L)` on the toroidal domain. -/
def wrapDiff (L d : ℚ) : ℚ :=
  d - L * (round (d / L) : ℤ)

/-- Modelled from the spec: squared minimum-image distance between two points,
the sum of the squared per-axis minimal wrapped differences (section 4.1).
`FoodEvent.executeEvent` appends the event origin as an extra virtual point
and reads the row of squared distances from the origin to every particle;
that row is exactly `positions.map (distSqTo domainSize origin)`. -/
def distSqTo (domainSize : ℚ × ℚ) (origin p : ℚ × ℚ) : ℚ :=
  wrapDiff domainSize.1 (p.1 - origin.1) ^ 2 + wrapDiff domainSize.2 (p.2 - origin.2) ^ 2

end ServiceVicsekHelper

/-- Comparison used by the executable model of `np.argsort` below: indices
are ordered by their value in `v`, with ties by ascending index. -/
def distLe (v : List ℚ) (i j : ℕ) : Prop :=
  v.getD i 0 < v.getD j 0 ∨ (v.getD i 0 = v.getD j 0 ∧ i ≤ j)

instance (v : List ℚ) (i j : ℕ) : Decidable (distLe v i j) :=
  inferInstanceAs (Decidable (_ ∨ _))

instance (v : List ℚ) : IsTotal ℕ (distLe v) :=
  ⟨fun i j => by
    rcases lt_trichotomy (v.getD i 0) (v.getD j 0) with h | h | h
    · exact Or.inl (Or.inl h)
    · rcases Nat.le_total i j with hij | hij
      · exact Or.inl (Or.inr ⟨h, hij⟩)
      · exact Or.inr (Or.inr ⟨h.symm, hij⟩)
    · exact Or.inr (Or.inl h)⟩

instance (v : List ℚ) : IsTrans ℕ (distLe v) :=
  ⟨fun a b c hab hbc => by
    rcases hab with h1 | ⟨h1, h1'⟩ <;> rcases hbc with h2 | ⟨h2, h2'⟩
    · exact Or.inl (h1.trans h2)
    · exact Or.inl (h2 ▸ h1)
    · exact Or.inl (h1 ▸ h2)
    · exact Or.inr ⟨h1.trans h2, h1'.trans h2'⟩⟩

/-- Executable model of `np.argsort` applied to the squared-distance vector:
the list of all indices of `v`, sorted by value.  NumPy's default sort kind
does not document its tie order and is not stable, so an executable model
has to pick some deterministic order; this one breaks ties by ascending
index.  No theorem in this file depends on that choice: every concrete
input on which `argsort` is evaluated has fewer than two elements, and the
remaining statements about `selectAffected` are tie-order independent. -/
def argsort (v : List ℚ) : List ℕ :=
  List.insertionSort (distLe v) (List.range v.length)

/-- Event state of `src/events/FoodEvent.py`.  The constructor stores
`areas=[(x, y, r)]`; `self.radius` is first set to `areas[0][2]` and then
overwritten by the `radius` argument when that is given, and the origin
returned by `getOriginPoint` is `areas[0][:2]`.  Both are kept here as the
resolved `radius` and `origin` fields.  `duration` is initialised to `-1`. -/
structure EventState where
  startTimestep : ℕ
  maxAmount : ℤ
  amount : ℤ
  domainSize : ℚ × ℚ
  origin : ℚ × ℚ
  radius : ℚ
  duration : ℤ
  deriving Repr, DecidableEq

namespace FoodEvent

/-- Embedding of `FoodEvent.selectAffected` (src/events/FoodEvent.py).
Takes the remaining `amount`, the boolean candidate mask and the squared
distances to the origin; returns the updated `amount` and the affected mask.
Note that the source compares `self.amount` with `len(candidates)`, the
length of the mask (the total particle count), not with the number of true
entries, and decrements `self.amount` by that minimum before the mask is
intersected with `candidates`. -/
def selectAffected (amount : ℤ) (candidates : List Bool) (rij2 : List ℚ) :
    ℤ × List Bool :=
  let numberOfAffected : ℤ :=
    if amount < (candidates.length : ℤ) then amount else (candidates.length : ℤ)
  let amount' := amount - numberOfAffected
  let indices := (argsort rij2).take numberOfAffected.toNat
  let preselection :=
    (List.range candidates.length).map (fun j => if j ∈ indices then true else false)
  (amount', List.zipWith (fun c p => c && p) candidates preselection)

/-- Embedding of `FoodEvent.executeEvent`.  The `posWithCenter` construction
of the source reduces to the per-particle squared distance to the origin
(`relevantDistances = rij2[-1][:-1]`).  Returns the updated event state, the
updated speeds and hunger levels, and the affected mask. -/
def executeEvent (ev : EventState) (positions : List (ℚ × ℚ))
    (speeds hungerLevels : List ℚ) :
    EventState × List ℚ × List ℚ × List Bool :=
  let relevantDistances := positions.map (ServiceVicsekHelper.distSqTo ev.domainSize ev.origin)
  let candidates := relevantDistances.map (fun d => if d ≤ ev.radius ^ 2 then true else false)
  let sel := selectAffected ev.amount candidates relevantDistances
  let affected := sel.2
  let speeds' := List.zipWith (fun s a => if a then 0 else s) speeds affected
  let hungerLevels' := List.zipWith (fun h a => if a then h + 1 else h) hungerLevels affected
  ({ ev with amount := sel.1 }, speeds', hungerLevels', affected)

/-- Embedding of `FoodEvent.check`.  The event fires when
`self.startTimestep >= currentTimestep and self.amount > 0`; otherwise the
inputs are returned unchanged together with an all-false affected mask (and
`duration` is recorded on the first non-firing call). -/
def check (ev : EventState) (totalNumberOfParticles currentTimestep : ℕ)
    (positions : List (ℚ × ℚ)) (speeds hungerLevels : List ℚ) :
    EventState × List ℚ × List ℚ × List Bool :=
  if currentTimestep ≤ ev.startTimestep ∧ 0 < ev.amount then
    executeEvent ev positions speeds hungerLevels
  else
    (if ev.duration = -1 then
       { ev with duration := (currentTimestep : ℤ) - (ev.startTimestep : ℤ) }
     else ev,
     speeds, hungerLevels, List.replicate totalNumberOfParticles false)

end FoodEvent

/-- Configuration of `VicsekWithNeighbourSelectionOscillationFood` restricted
to the fields the food subsystem reads. -/
structure FoodConfig where
  numberOfParticles : ℕ
  domainSize : ℚ × ℚ
  radius : ℚ
  speed : ℚ
  maxFood : ℚ
  foodAppearanceProbability : ℚ
  foodSourceAmount : ℤ
  deriving Repr, DecidableEq

/-- Per-timestep inputs of the food subsystem that the surrounding simulation
supplies: the `random.random()` draws consumed by `updateFoodEvents` (`r` is
the spawn test draw, `rx`, `ry` the origin draws) and the particle positions
for the step, which are produced by the orientation/motion engine outside
this subsystem. -/
structure StepInput where
  r : ℚ
  rx : ℚ
  ry : ℚ
  positions : List (ℚ × ℚ)
  deriving Repr, DecidableEq

/-- Default step input used only as the out-of-range fallback of `List.getD`. -/
def dummyStepInput : StepInput :=
  ⟨1, 0, 0, []⟩

/-- State of the food subsystem of the simulation loop of
`VicsekWithNeighbourSelectionOscillationFood.simulate`. -/
structure FoodState where
  t : ℕ
  foodEvents : List EventState
  speeds : List ℚ
  hungerLevels : List ℚ
  alive : List Bool
  deriving Repr, DecidableEq

namespace FoodModel

/-- Embedding of the loop in `handleFoodEvents` that calls `check` on every
food event in order, threading the speeds and hunger levels through and
collecting the per-event affected masks (`overallAffected`). -/
def foodEventChecksFold (n t : ℕ) (positions : List (ℚ × ℚ)) :
    List EventState → List ℚ → List ℚ →
    List EventState × List ℚ × List ℚ × List (List Bool)
  | [], speeds, hungerLevels => ([], speeds, hungerLevels, [])
  | ev :: evs, speeds, hungerLevels =>
    let c := FoodEvent.check ev n t positions speeds hungerLevels
    let rest := foodEventChecksFold n t positions evs c.2.1 c.2.2.1
    (c.1 :: rest.1, rest.2.1, rest.2.2.1, c.2.2.2 :: rest.2.2.2)

/-- Embedding of
`VicsekWithNeighbourSelectionOscillationFood.handleFoodEvents`.  After the
per-event checks, the speeds array is rebuilt from scratch: every particle
gets the nominal speed, particles affected by at least one event (the `flat`
index set) get speed 0, and finally `np.where(hungerLevels >= maxFood, speed,
speeds)` restores the nominal speed for satiated particles.  The source wraps
the union computation in `if len(self.foodEvents) > 0` and `if len(flat) > 0`
guards; with no events the mask list is empty and the union is empty, which
the first branch of the `if` below reproduces. -/
def handleFoodEvents (cfg : FoodConfig) (t : ℕ) (positions : List (ℚ × ℚ))
    (speeds hungerLevels : List ℚ) (foodEvents : List EventState) :
    List EventState × List ℚ × List ℚ :=
  let folded := foodEventChecksFold cfg.numberOfParticles t positions foodEvents speeds hungerLevels
  let hungerLevels' := folded.2.2.1
  let masks := folded.2.2.2
  let speedsReset := List.replicate cfg.numberOfParticles cfg.speed
  let speedsHalted :=
    if 0 < foodEvents.length then
      (List.range cfg.numberOfParticles).map
        (fun j => if masks.any (fun m => m.getD j false) then 0 else cfg.speed)
    else speedsReset
  let speedsFinal :=
    List.zipWith (fun h s => if cfg.maxFood ≤ h then cfg.speed else s) hungerLevels' speedsHalted
  (folded.1, speedsFinal, hungerLevels')

/-- Embedding of
`VicsekWithNeighbourSelectionOscillationFood.updateFoodEvents`: when the
appearance probability is neither `None` nor 0 and the `random.random()` draw
falls below it, a fresh `FoodEvent` is appended whose `startTimestep` is the
current step, whose budget is `foodSourceAmount` and whose origin is drawn
uniformly over the domain. -/
def updateFoodEvents (cfg : FoodConfig) (t : ℕ) (inp : StepInput)
    (events : List EventState) : List EventState :=
  if cfg.foodAppearanceProbability ≠ 0 ∧ inp.r < cfg.foodAppearanceProbability then
    events ++ [⟨t, cfg.foodSourceAmount, cfg.foodSourceAmount, cfg.domainSize,
      (inp.rx * cfg.domainSize.1, inp.ry * cfg.domainSize.2), cfg.radius, -1⟩]
  else events

/-- Projection of one iteration of
`VicsekWithNeighbourSelectionOscillationFood.simulate` onto the food
subsystem (the run configuration has `switchSummary=None`, so no speed
switching happens after `handleFoodEvents`; orientation and position
integration happen outside this subsystem and enter through
`inp.positions`).  In the source, `previousHungerLevels = hungerLevels`
binds a second name to the same ndarray object that `executeEvent` then
mutates in place (`hungerLevels[affected] += 1`), so when the decay guard
`hungerLevels == previousHungerLevels` is evaluated both names denote the
post-feeding array and the guard is elementwise true: every agent, fed or
not, is decremented by 0.1.  Aliveness is then recomputed from the hunger
levels alone: `alive = np.where(hungerLevels > 0, True, False)`. -/
def foodLoopStep (cfg : FoodConfig) (inp : StepInput) (s : FoodState) : FoodState :=
  let events0 := updateFoodEvents cfg s.t inp s.foodEvents
  let handled := handleFoodEvents cfg s.t inp.positions s.speeds s.hungerLevels events0
  let previousHungerLevels := handled.2.2
  let hungerLevels' := List.zipWith
    (fun h p => if h = p then h - 1/10 else h) handled.2.2 previousHungerLevels
  let alive' := hungerLevels'.map (fun h => if 0 < h then true else false)
  ⟨s.t + 1, handled.1, handled.2.1, hungerLevels', alive'⟩

/-- Iterated simulation loop of the food subsystem: one `foodLoopStep` per
entry of the input trace. -/
def foodRun (cfg : FoodConfig) (inputs : List StepInput) (s0 : FoodState) : FoodState :=
  inputs.foldl (fun s inp => foodLoopStep cfg inp s) s0

/-- State of the food subsystem after the first `k` steps of the run; the
history rows written by `simulate` at index `t` are the fields of
`runState cfg inputs s0 (t+1)`. -/
def runState (cfg : FoodConfig) (inputs : List StepInput) (s0 : FoodState) (k : ℕ) :
    FoodState :=
  foodRun cfg (inputs.take k) s0

/-- Initial food state built by `simulate`: hunger levels start at `maxFood`,
everyone is alive, speeds are the nominal speed (`prepareSimulation`), and
the event list is the `foodEvents` constructor argument. -/
def initFoodState (cfg : FoodConfig) (events0 : List EventState) : FoodState :=
  ⟨0, events0, List.replicate cfg.numberOfParticles cfg.speed,
   List.replicate cfg.numberOfParticles cfg.maxFood,
   List.replicate cfg.numberOfParticles true⟩

/-- Per-event affected masks produced during one `foodLoopStep` (after the
possible spawn of `updateFoodEvents`). -/
def stepMasks (cfg : FoodConfig) (inp : StepInput) (s : FoodState) : List (List Bool) :=
  (foodEventChecksFold cfg.numberOfParticles s.t inp.positions
    (updateFoodEvents cfg s.t inp s.foodEvents) s.speeds s.hungerLevels).2.2.2

/-- Whether agent `i` is selected (fed) by at least one food event during the
step taken from state `s` with input `inp`. -/
def stepAffected (cfg : FoodConfig) (inp : StepInput) (s : FoodState) (i : ℕ) : Bool :=
  (stepMasks cfg inp s).any (fun m => m.getD i false)

/-- The step input spawns no food event: either the appearance probability is
zero (or `None`) or the draw does not fall below it. -/
def spawnsNothing (cfg : FoodConfig) (inp : StepInput) : Prop :=
  ¬ (cfg.foodAppearanceProbability ≠ 0 ∧ inp.r < cfg.foodAppearanceProbability)

end FoodModel

/-- Concrete configuration used by the concrete runs below: one particle on a
10 by 10 domain, perception radius 1, nominal speed 1, `maxFood` 1, food
appearance probability 1/2 and per-event budget 1. -/
def cfgEx : FoodConfig :=
  ⟨1, (10, 10), 1, 1, 1, 1/2, 1⟩

/-- Step input whose spawn draw 1 is not below the appearance probability:
no food event appears; the particle sits at the origin. -/
def inpQuiet : StepInput :=
  ⟨1, 0, 0, [(0, 0)]⟩

/-- Step input whose spawn draw 0 is below the appearance probability 1/2:
a food event is spawned at origin (0*10, 0*10) = (0,0), on top of the
particle. -/
def inpSpawn : StepInput :=
  ⟨0, 0, 0, [(0, 0)]⟩

noncomputable section

namespace ServiceVision

open Real

/-- Python float modulo with a positive modulus, as used by the source for
`% (2*np.pi)`: the representative of `x` in `[0, m)`. -/
def pythonMod (x m : ℝ) : ℝ :=
  x - m * ⌊x / m⌋

/-- Embedding of `ServiceVision.normaliseAngles` acting on one angle:
`np.where(a < 0, 2*pi - |a|, a)` followed by
`np.where(a > 2*pi, a % (2*pi), a)`. -/
def normaliseAngles (a : ℝ) : ℝ :=
  let a1 := if a < 0 then 2 * π - |a| else a
  if 2 * π < a1 then pythonMod a1 (2 * π) else a1

/-- Embedding of `ServiceVision.determineMinMaxAngleOfVision` for one agent.
The source first converts the orientation vector to an angle with
`ServiceOrientations.computeAnglesForOrientations` (not under `src/`); the
already-computed heading angle is therefore taken as the input here, and the
source's `normaliseAngles` calls are kept. -/
def determineMinMaxAngleOfVision (degreesOfVision angle : ℝ) : ℝ × ℝ :=
  let angularDistance := degreesOfVision / 2
  let currentAngle := normaliseAngles angle
  (normaliseAngles (currentAngle - angularDistance),
   normaliseAngles (currentAngle + angularDistance))

/-- Embedding of `ServiceVision.isInFieldOfVision` at entry `(i, j)` of the
matrix it returns.  Two faithful quirks of the source:
`np.arctan(posDiffs[:, :, 1], posDiffs[:, :, 0])` calls the one-argument
arctangent ufunc whose second positional argument is the `out` buffer, so
only the y-difference enters the computed angle; and broadcasting the
length-n `minAngles`/`maxAngles` vectors against the (n, n) angle matrix
aligns them with the second (candidate) axis, so the bounds are read at
index `j`. -/
def isInFieldOfVision (positions : List (ℝ × ℝ)) (minAngles maxAngles : List ℝ)
    (i j : ℕ) : Prop :=
  let pI := positions.getD i (0, 0)
  let pJ := positions.getD j (0, 0)
  let relativeAngle := Real.arctan (pJ.2 - pI.2)
  let angle := pythonMod relativeAngle (2 * π)
  let mn := minAngles.getD j 0
  let mx := maxAngles.getD j 0
  (mn < mx ∧ (mn ≤ angle ∧ angle ≤ mx)) ∨ (mx ≤ mn ∧ (mn ≤ angle ∨ angle ≤ mx))

/-- Modelled from the spec: the intended field-of-view test of section 4.2,
"compute the signed bearing from agent i to each candidate relative to i's
own heading; candidate is in view if bearing lies within fov/2 to either
side of i's heading", with the wraparound handled by reducing the bearing
difference modulo 2*pi.  The signed bearing of the displacement (dx, dy) is
the two-argument arctangent, which is `Complex.arg` of dx + dy*I. -/
def signedBearingInView (positions : List (ℝ × ℝ)) (heading fov : ℝ)
    (i j : ℕ) : Prop :=
  let pI := positions.getD i (0, 0)
  let pJ := positions.getD j (0, 0)
  let bearing := Complex.arg ⟨pJ.1 - pI.1, pJ.2 - pI.2⟩
  let rel := pythonMod (bearing - heading) (2 * π)
  rel ≤ fov / 2 ∨ 2 * π - fov / 2 ≤ rel

/-- Embedding of the per-pair field-of-view and distance test of
`ServiceVision.get_visible_agents` (the `in_fov` mask at entry `j` of agent
`i`'s sweep): raw, non-periodic displacement `positions - pos_i`, Euclidean
norm, direction clipped away from zero division, angle to the heading via
the clipped arc cosine, and the raw distance compared against
`view_distance`. -/
def gvaInFov (positions : List (ℝ × ℝ)) (orientations : List ℝ)
    (fov viewDistance : ℝ) (i j : ℕ) : Prop :=
  let pI := positions.getD i (0, 0)
  let pJ := positions.getD j (0, 0)
  let rel := (pJ.1 - pI.1, pJ.2 - pI.2)
  let dist := Real.sqrt (rel.1 ^ 2 + rel.2 ^ 2)
  let denom := max (1 / 10 ^ 8) dist
  let dir := (rel.1 / denom, rel.2 / denom)
  let orient := orientations.getD i 0
  let cosAngle := dir.1 * Real.cos orient + dir.2 * Real.sin orient
  let angle := Real.arccos (min 1 (max (-1) cosAngle))
  angle ≤ fov / 2 ∧ 0 < dist ∧ dist ≤ viewDistance

/-- Modelled from the spec: squared minimum-image distance over the reals
(section 4.1, `d - L*round(d/L)` per axis), the distance the claim says the
visibility computation uses for candidate membership. -/
def minImageDistSq (domainSize : ℝ × ℝ) (a b : ℝ × ℝ) : ℝ :=
  (a.1 - b.1 - domainSize.1 * (round ((a.1 - b.1) / domainSize.1) : ℤ)) ^ 2 +
  (a.2 - b.2 - domainSize.2 * (round ((a.2 - b.2) / domainSize.2) : ℤ)) ^ 2

/-- Raw squared Euclidean distance between two listed positions, the quantity
`get_visible_agents` actually compares against `view_distance`. -/
def rawDistSq (positions : List (ℝ × ℝ)) (i j : ℕ) : ℝ :=
  let pI := positions.getD i (0, 0)
  let pJ := positions.getD j (0, 0)
  (pJ.1 - pI.1) ^ 2 + (pJ.2 - pI.2) ^ 2

end ServiceVision

end

/-- Claim C1: `FoodEvent.check` fires, handing control to `executeEvent`, if
and only if `currentTimestep ≤ startTimestep` and the remaining amount budget
is positive; on every other call it returns the speeds and hunger levels
unchanged together with an all-false affected mask. -/
theorem foodEvent_check_fires_iff (ev : EventState) (n t : ℕ)
    (positions : List (ℚ × ℚ)) (speeds hungerLevels : List ℚ) :
    ((t ≤ ev.startTimestep ∧ 0 < ev.amount) →
       FoodEvent.check ev n t positions speeds hungerLevels =
         FoodEvent.executeEvent ev positions speeds hungerLevels) ∧
    (¬ (t ≤ ev.startTimestep ∧ 0 < ev.amount) →
       (FoodEvent.check ev n t positions speeds hungerLevels).2 =
         (speeds, hungerLevels, List.replicate n false)) := by
  constructor
  · intro h
    simp [FoodEvent.check, h]
  · intro h
    simp only [FoodEvent.check, if_neg h]

/-- Witness for claim C1: both branches of the firing dichotomy, exercised on
concrete inputs.  An event with `startTimestep = 5` and budget `3` fires at
timestep `4`; the same event does not fire at timestep `6` and returns its
inputs unchanged with an all-false mask. -/
theorem foodEvent_check_fires_iff_witness :
    (((4 : ℕ) ≤ 5 ∧ (0 : ℤ) < 3) ∧
      FoodEvent.check ⟨5, 3, 3, (10, 10), (2, 2), 1, -1⟩ 1 4 [(0, 0)] [1] [1] =
        FoodEvent.executeEvent ⟨5, 3, 3, (10, 10), (2, 2), 1, -1⟩ [(0, 0)] [1] [1]) ∧
    (¬ ((6 : ℕ) ≤ 5 ∧ (0 : ℤ) < 3) ∧
      (FoodEvent.check ⟨5, 3, 3, (10, 10), (2, 2), 1, -1⟩ 1 6 [(0, 0)] [1] [1]).2 =
        ([1], [1], List.replicate 1 false)) := by
  refine ⟨⟨⟨by norm_num, by norm_num⟩, ?_⟩, ⟨by simp, ?_⟩⟩
  · exact (foodEvent_check_fires_iff ⟨5, 3, 3, (10, 10), (2, 2), 1, -1⟩ 1 4
      [(0, 0)] [1] [1]).1 ⟨by norm_num, by norm_num⟩
  · exact (foodEvent_check_fires_iff ⟨5, 3, 3, (10, 10), (2, 2), 1, -1⟩ 1 6
      [(0, 0)] [1] [1]).2 (by simp)

theorem getD_zipWith_of_lt {α β γ : Type} (f : α → β → γ) (as : List α) (bs : List β)
    (i : ℕ) (ha : i < as.length) (hb : i < bs.length) (da : α) (db : β) (dc : γ) :
    (List.zipWith f as bs).getD i dc = f (as.getD i da) (bs.getD i db) := by
  simp [List.getD_eq_getElem?_getD, List.getElem?_zipWith, List.getElem?_eq_getElem, ha, hb]

theorem getD_map_of_lt {α β : Type} (f : α → β) (l : List α) (i : ℕ)
    (hi : i < l.length) (da : α) (db : β) :
    (l.map f).getD i db = f (l.getD i da) := by
  simp [List.getD_eq_getElem?_getD, List.getElem?_map, List.getElem?_eq_getElem, hi]

theorem getD_map_range_of_lt {α : Type} (f : ℕ → α) (n i : ℕ) (hi : i < n) (d : α) :
    ((List.range n).map f).getD i d = f i := by
  have h : i < (List.range n).length := by simpa [List.length_range] using hi
  rw [getD_map_of_lt f _ i h 0 d]
  simp [List.getD_eq_getElem?_getD, List.getElem?_range hi]

theorem getD_replicate_of_lt {α : Type} (n i : ℕ) (hi : i < n) (a d : α) :
    (List.replicate n a).getD i d = a := by
  rw [List.getD_eq_getElem?_getD, List.getElem?_eq_getElem (by simpa using hi)]
  simp

theorem getD_of_length_le {α : Type} (l : List α) (i : ℕ) (hi : l.length ≤ i) (d : α) :
    l.getD i d = d := by
  rw [List.getD_eq_getElem?_getD, List.getElem?_eq_none hi]
  rfl

theorem round_eval {α : Type} [LinearOrderedField α] [FloorRing α]
    (q : α) (z : ℤ) (h1 : (z : α) ≤ q + 1/2) (h2 : q + 1/2 < z + 1) :
    round q = z := by
  rw [round_eq]
  exact Int.floor_eq_iff.mpr ⟨by exact_mod_cast h1, by exact_mod_cast h2⟩

theorem round_neg_half : round (-(1/2) : ℚ) = 0 :=
  round_eval _ _ (by norm_num) (by norm_num)

/-- Claim C3 is refuted by the code: a firing with no particle inside the
event radius still consumes budget.  One particle at the origin, event at
(5, 5) with radius 1 and budget 1: the minimum-image squared distance is 50,
nobody is selected (the affected mask is all-false), yet `selectAffected`
decrements the budget from 1 to 0, because it subtracts
`min(amount, len(candidates))`, the mask length, not the number of selected
particles. -/
theorem foodEvent_budget_decrement_bug :
    (FoodEvent.executeEvent ⟨0, 1, 1, (10, 10), (5, 5), 1, -1⟩ [(0, 0)] [1] [1]).2.2.2
      = [false] ∧
    (FoodEvent.executeEvent ⟨0, 1, 1, (10, 10), (5, 5), 1, -1⟩ [(0, 0)] [1] [1]).1.amount
      = 0 ∧
    (EventState.amount ⟨0, 1, 1, (10, 10), (5, 5), 1, -1⟩ = 1) := by
  refine ⟨?_, ?_, rfl⟩ <;>
  norm_num [FoodEvent.executeEvent, FoodEvent.selectAffected,
    ServiceVicsekHelper.distSqTo, ServiceVicsekHelper.wrapDiff,
    argsort, List.insertionSort, List.orderedInsert,
    List.range_succ, List.range_zero, round_neg_half]

theorem decay_eq_map (l : List ℚ) :
    List.zipWith (fun h p => if h = p then h - 1/10 else h) l l
      = l.map (fun h => h - 1/10) := by
  rw [List.zipWith_same]
  simp

theorem executeEvent_mask_length (ev : EventState) (pos : List (ℚ × ℚ))
    (sp hu : List ℚ) :
    (FoodEvent.executeEvent ev pos sp hu).2.2.2.length = pos.length := by
  simp [FoodEvent.executeEvent, FoodEvent.selectAffected, List.length_zipWith]

theorem executeEvent_hunger_length (ev : EventState) (pos : List (ℚ × ℚ))
    (sp hu : List ℚ) (hh : hu.length = pos.length) :
    (FoodEvent.executeEvent ev pos sp hu).2.2.1.length = pos.length := by
  have hm := executeEvent_mask_length ev pos sp hu
  have : (FoodEvent.executeEvent ev pos sp hu).2.2.1 =
      List.zipWith (fun h a => if a then h + 1 else h) hu
        (FoodEvent.executeEvent ev pos sp hu).2.2.2 := rfl
  rw [this, List.length_zipWith, hm, hh]
  exact min_self _

theorem executeEvent_hunger_getD_unfed (ev : EventState) (pos : List (ℚ × ℚ))
    (sp hu : List ℚ) (i : ℕ) (hh : hu.length = pos.length) (hi : i < pos.length)
    (hf : (FoodEvent.executeEvent ev pos sp hu).2.2.2.getD i false = false) :
    (FoodEvent.executeEvent ev pos sp hu).2.2.1.getD i 0 = hu.getD i 0 := by
  have hm := executeEvent_mask_length ev pos sp hu
  have hrw : (FoodEvent.executeEvent ev pos sp hu).2.2.1 =
      List.zipWith (fun h a => if a then h + 1 else h) hu
        (FoodEvent.executeEvent ev pos sp hu).2.2.2 := rfl
  rw [hrw, getD_zipWith_of_lt _ _ _ i (by omega) (by omega) 0 false 0, hf]
  simp

theorem check_mask_length (ev : EventState) (n t : ℕ) (pos : List (ℚ × ℚ))
    (sp hu : List ℚ) (hp : pos.length = n) :
    (FoodEvent.check ev n t pos sp hu).2.2.2.length = n := by
  rw [FoodEvent.check]
  split
  · rw [executeEvent_mask_length, hp]
  · simp

theorem check_hunger_length (ev : EventState) (n t : ℕ) (pos : List (ℚ × ℚ))
    (sp hu : List ℚ) (hp : pos.length = n) (hh : hu.length = n) :
    (FoodEvent.check ev n t pos sp hu).2.2.1.length = n := by
  rw [FoodEvent.check]
  split
  · rw [executeEvent_hunger_length ev pos sp hu (by omega), hp]
  · exact hh

theorem check_hunger_getD_unfed (ev : EventState) (n t : ℕ) (pos : List (ℚ × ℚ))
    (sp hu : List ℚ) (i : ℕ) (hp : pos.length = n) (hh : hu.length = n) (hi : i < n)
    (hf : (FoodEvent.check ev n t pos sp hu).2.2.2.getD i false = false) :
    (FoodEvent.check ev n t pos sp hu).2.2.1.getD i 0 = hu.getD i 0 := by
  rw [FoodEvent.check] at hf ⊢
  revert hf
  split
  · intro hf
    exact executeEvent_hunger_getD_unfed ev pos sp hu i (by omega) (by omega) hf
  · intro _
    rfl

theorem fold_hunger_length (n t : ℕ) (pos : List (ℚ × ℚ)) (events : List EventState) :
    ∀ (sp hu : List ℚ), pos.length = n → hu.length = n →
      (FoodModel.foodEventChecksFold n t pos events sp hu).2.2.1.length = n := by
  induction events with
  | nil => intro sp hu _ hh; exact hh
  | cons ev evs ih =>
    intro sp hu hp hh
    rw [FoodModel.foodEventChecksFold]
    exact ih _ _ hp (check_hunger_length ev n t pos sp hu hp hh)

theorem fold_hunger_getD_unfed (n t : ℕ) (pos : List (ℚ × ℚ)) (events : List EventState) :
    ∀ (sp hu : List ℚ) (i : ℕ), pos.length = n → hu.length = n → i < n →
      (∀ m ∈ (FoodModel.foodEventChecksFold n t pos events sp hu).2.2.2,
        m.getD i false = false) →
      (FoodModel.foodEventChecksFold n t pos events sp hu).2.2.1.getD i 0 = hu.getD i 0 := by
  induction events with
  | nil => intro sp hu i _ _ _ _; rfl
  | cons ev evs ih =>
    intro sp hu i hp hh hi hf
    rw [FoodModel.foodEventChecksFold] at hf ⊢
    have hhead : (FoodEvent.check ev n t pos sp hu).2.2.2.getD i false = false :=
      hf _ (List.mem_cons_self _ _)
    have htail : ∀ m ∈ (FoodModel.foodEventChecksFold n t pos evs
        (FoodEvent.check ev n t pos sp hu).2.1
        (FoodEvent.check ev n t pos sp hu).2.2.1).2.2.2, m.getD i false = false := by
      intro m hm
      exact hf m (List.mem_cons_of_mem _ hm)
    have hrec := ih (FoodEvent.check ev n t pos sp hu).2.1
      (FoodEvent.check ev n t pos sp hu).2.2.1 i hp
      (check_hunger_length ev n t pos sp hu hp hh) hi htail
    rw [hrec]
    exact check_hunger_getD_unfed ev n t pos sp hu i hp hh hi hhead

theorem foodLoopStep_hunger_eq (cfg : FoodConfig) (inp : StepInput) (s : FoodState) :
    (FoodModel.foodLoopStep cfg inp s).hungerLevels =
      ((FoodModel.foodEventChecksFold cfg.numberOfParticles s.t inp.positions
        (FoodModel.updateFoodEvents cfg s.t inp s.foodEvents)
        s.speeds s.hungerLevels).2.2.1).map (fun h => h - 1/10) := by
  have : (FoodModel.foodLoopStep cfg inp s).hungerLevels =
      List.zipWith (fun h p => if h = p then h - 1/10 else h)
        ((FoodModel.foodEventChecksFold cfg.numberOfParticles s.t inp.positions
          (FoodModel.updateFoodEvents cfg s.t inp s.foodEvents)
          s.speeds s.hungerLevels).2.2.1)
        ((FoodModel.foodEventChecksFold cfg.numberOfParticles s.t inp.positions
          (FoodModel.updateFoodEvents cfg s.t inp s.foodEvents)
          s.speeds s.hungerLevels).2.2.1) := rfl
  rw [this, decay_eq_map]

theorem foodLoopStep_hunger_length (cfg : FoodConfig) (inp : StepInput) (s : FoodState)
    (hp : inp.positions.length = cfg.numberOfParticles)
    (hh : s.hungerLevels.length = cfg.numberOfParticles) :
    (FoodModel.foodLoopStep cfg inp s).hungerLevels.length = cfg.numberOfParticles := by
  rw [foodLoopStep_hunger_eq, List.length_map]
  exact fold_hunger_length _ _ _ _ _ _ hp hh

theorem foodLoopStep_hunger_getD_unfed (cfg : FoodConfig) (inp : StepInput)
    (s : FoodState) (i : ℕ)
    (hp : inp.positions.length = cfg.numberOfParticles)
    (hh : s.hungerLevels.length = cfg.numberOfParticles)
    (hi : i < cfg.numberOfParticles)
    (hf : FoodModel.stepAffected cfg inp s i = false) :
    (FoodModel.foodLoopStep cfg inp s).hungerLevels.getD i 0
      = s.hungerLevels.getD i 0 - 1/10 := by
  rw [foodLoopStep_hunger_eq]
  have hflen : (FoodModel.foodEventChecksFold cfg.numberOfParticles s.t inp.positions
      (FoodModel.updateFoodEvents cfg s.t inp s.foodEvents)
      s.speeds s.hungerLevels).2.2.1.length = cfg.numberOfParticles :=
    fold_hunger_length _ _ _ _ _ _ hp hh
  rw [getD_map_of_lt _ _ i (by omega) 0 0]
  have hall : ∀ m ∈ (FoodModel.foodEventChecksFold cfg.numberOfParticles s.t inp.positions
      (FoodModel.updateFoodEvents cfg s.t inp s.foodEvents)
      s.speeds s.hungerLevels).2.2.2, m.getD i false = false := by
    have := List.any_eq_false.mp hf
    intro m hm
    have h2 := this m hm
    exact Bool.not_eq_true _ |>.mp h2
  rw [fold_hunger_getD_unfed _ _ _ _ _ _ i hp hh hi hall]

theorem foodLoopStep_alive_getD (cfg : FoodConfig) (inp : StepInput) (s : FoodState)
    (i : ℕ)
    (hp : inp.positions.length = cfg.numberOfParticles)
    (hh : s.hungerLevels.length = cfg.numberOfParticles)
    (hi : i < cfg.numberOfParticles) :
    ((FoodModel.foodLoopStep cfg inp s).alive.getD i false = true ↔
      0 < (FoodModel.foodLoopStep cfg inp s).hungerLevels.getD i 0) := by
  have hlen := foodLoopStep_hunger_length cfg inp s hp hh
  have halive : (FoodModel.foodLoopStep cfg inp s).alive =
      (FoodModel.foodLoopStep cfg inp s).hungerLevels.map
        (fun h => if 0 < h then true else false) := rfl
  rw [halive, getD_map_of_lt _ _ i (by omega) 0 false]
  by_cases h : 0 < (FoodModel.foodLoopStep cfg inp s).hungerLevels.getD i 0
  · rw [if_pos h]
    exact ⟨fun _ => h, fun _ => rfl⟩
  · rw [if_neg h]
    exact ⟨fun hfalse => absurd hfalse Bool.false_ne_true, fun hcon => absurd hcon h⟩

theorem runState_zero (cfg : FoodConfig) (inputs : List StepInput) (s0 : FoodState) :
    FoodModel.runState cfg inputs s0 0 = s0 := by
  rw [FoodModel.runState, List.take_zero, FoodModel.foodRun, List.foldl_nil]

theorem runState_succ (cfg : FoodConfig) (inputs : List StepInput) (s0 : FoodState)
    (k : ℕ) (hk : k < inputs.length) :
    FoodModel.runState cfg inputs s0 (k + 1) =
      FoodModel.foodLoopStep cfg (inputs.getD k dummyStepInput)
        (FoodModel.runState cfg inputs s0 k) := by
  rw [FoodModel.runState, FoodModel.runState, List.take_succ,
    List.getElem?_eq_getElem hk]
  rw [FoodModel.foodRun, FoodModel.foodRun, List.foldl_append]
  rw [List.getD_eq_getElem?_getD, List.getElem?_eq_getElem hk]
  rfl

theorem runState_hunger_length (cfg : FoodConfig) (inputs : List StepInput)
    (s0 : FoodState)
    (hs0 : s0.hungerLevels.length = cfg.numberOfParticles)
    (hpos : ∀ inp ∈ inputs, inp.positions.length = cfg.numberOfParticles) :
    ∀ k, k ≤ inputs.length →
      (FoodModel.runState cfg inputs s0 k).hungerLevels.length = cfg.numberOfParticles := by
  intro k
  induction k with
  | zero => intro _; rw [runState_zero]; exact hs0
  | succ m ih =>
    intro hm
    have hmlt : m < inputs.length := by omega
    rw [runState_succ cfg inputs s0 m hmlt]
    have hmem : inputs.getD m dummyStepInput ∈ inputs := by
      rw [List.getD_eq_getElem?_getD, List.getElem?_eq_getElem hmlt]
      exact List.getElem_mem hmlt
    exact foodLoopStep_hunger_length cfg _ _ (hpos _ hmem) (ih (by omega))

theorem getD_mem_of_lt {α : Type} (l : List α) (k : ℕ) (hk : k < l.length) (d : α) :
    l.getD k d ∈ l := by
  rw [List.getD_eq_getElem?_getD, List.getElem?_eq_getElem hk]
  exact List.getElem_mem hk

/-- Claim C6: an agent that is never fed (selected by no food event) during
the first `K` steps has its hunger level reduced by exactly `K/10`, and at
every step the recomputed aliveness flag is true exactly when the hunger
level is still positive, so the agent turns not-alive exactly at the first
step at which its hunger reaches a value at most 0. -/
theorem foodModel_unfed_hunger_decay (cfg : FoodConfig) (inputs : List StepInput)
    (s0 : FoodState) (i K : ℕ)
    (hK : K ≤ inputs.length)
    (hs0 : s0.hungerLevels.length = cfg.numberOfParticles)
    (hpos : ∀ inp ∈ inputs, inp.positions.length = cfg.numberOfParticles)
    (hi : i < cfg.numberOfParticles)
    (hunfed : ∀ k, k < K → FoodModel.stepAffected cfg (inputs.getD k dummyStepInput)
      (FoodModel.runState cfg inputs s0 k) i = false) :
    (FoodModel.runState cfg inputs s0 K).hungerLevels.getD i 0
      = s0.hungerLevels.getD i 0 - (K : ℚ)/10 ∧
    (∀ k, 1 ≤ k → k ≤ K →
      ((FoodModel.runState cfg inputs s0 k).alive.getD i false = true ↔
        0 < (FoodModel.runState cfg inputs s0 k).hungerLevels.getD i 0)) := by
  have hmain : ∀ (K' : ℕ), K' ≤ inputs.length →
      (∀ k, k < K' → FoodModel.stepAffected cfg (inputs.getD k dummyStepInput)
        (FoodModel.runState cfg inputs s0 k) i = false) →
      (FoodModel.runState cfg inputs s0 K').hungerLevels.getD i 0
        = s0.hungerLevels.getD i 0 - (K' : ℚ)/10 := by
    intro K'
    induction K' with
    | zero =>
      intro _ _
      rw [runState_zero]
      norm_num
    | succ m ih =>
      intro hm hunf
      have hmlt : m < inputs.length := by omega
      have hmem : inputs.getD m dummyStepInput ∈ inputs :=
        getD_mem_of_lt inputs m hmlt dummyStepInput
      rw [runState_succ cfg inputs s0 m hmlt]
      rw [foodLoopStep_hunger_getD_unfed cfg _ _ i (hpos _ hmem)
        (runState_hunger_length cfg inputs s0 hs0 hpos m (by omega)) hi
        (hunf m (by omega))]
      rw [ih (by omega) (fun k hk => hunf k (by omega))]
      push_cast
      ring
  refine ⟨hmain K hK hunfed, ?_⟩
  intro k h1 hk
  obtain ⟨m, rfl⟩ : ∃ m, k = m + 1 := ⟨k - 1, by omega⟩
  have hmlt : m < inputs.length := by omega
  have hmem : inputs.getD m dummyStepInput ∈ inputs :=
    getD_mem_of_lt inputs m hmlt dummyStepInput
  rw [runState_succ cfg inputs s0 m hmlt]
  exact foodLoopStep_alive_getD cfg _ _ i (hpos _ hmem)
    (runState_hunger_length cfg inputs s0 hs0 hpos m (by omega)) hi

theorem foodLoopStep_quiet (cfg : FoodConfig) (inp : StepInput) (s : FoodState)
    (hsp : FoodModel.spawnsNothing cfg inp) (hev : s.foodEvents = []) :
    FoodModel.foodLoopStep cfg inp s =
      ⟨s.t + 1, [],
       List.zipWith (fun h sp => if cfg.maxFood ≤ h then cfg.speed else sp)
         s.hungerLevels (List.replicate cfg.numberOfParticles cfg.speed),
       s.hungerLevels.map (fun h => h - 1/10),
       (s.hungerLevels.map (fun h => h - 1/10)).map
         (fun h => if 0 < h then true else false)⟩ := by
  have hupd : FoodModel.updateFoodEvents cfg s.t inp s.foodEvents = [] := by
    rw [FoodModel.updateFoodEvents, if_neg hsp, hev]
  simp only [FoodModel.foodLoopStep, FoodModel.handleFoodEvents, hupd,
    FoodModel.foodEventChecksFold, List.length_nil, lt_self_iff_false, if_false,
    decay_eq_map]

theorem quietRun (cfg : FoodConfig) (inputs : List StepInput) (s0 : FoodState)
    (hev : s0.foodEvents = []) (hsp : ∀ inp ∈ inputs, FoodModel.spawnsNothing cfg inp) :
    ∀ k, k ≤ inputs.length →
      (FoodModel.runState cfg inputs s0 k).foodEvents = [] ∧
      (FoodModel.runState cfg inputs s0 k).hungerLevels
        = s0.hungerLevels.map (fun h => h - (k : ℚ)/10) ∧
      (1 ≤ k → (FoodModel.runState cfg inputs s0 k).alive
        = (s0.hungerLevels.map (fun h => h - (k : ℚ)/10)).map
            (fun h => if 0 < h then true else false)) := by
  intro k
  induction k with
  | zero =>
    intro _
    rw [runState_zero]
    refine ⟨hev, ?_, ?_⟩
    · have hfun : (fun h : ℚ => h - ((0 : ℕ) : ℚ)/10) = fun h : ℚ => h := by
        funext h
        push_cast
        ring
      rw [hfun, List.map_id']
    · intro habs
      exact absurd habs (by omega)
  | succ m ih =>
    intro hm
    have hmlt : m < inputs.length := by omega
    obtain ⟨ihev, ihh, _⟩ := ih (by omega)
    have hmem : inputs.getD m dummyStepInput ∈ inputs :=
      getD_mem_of_lt inputs m hmlt dummyStepInput
    rw [runState_succ cfg inputs s0 m hmlt,
      foodLoopStep_quiet cfg _ _ (hsp _ hmem) ihev]
    have hhunger : (FoodModel.runState cfg inputs s0 m).hungerLevels.map
        (fun h => h - 1/10)
        = s0.hungerLevels.map (fun h => h - ((m + 1 : ℕ) : ℚ)/10) := by
      rw [ihh, List.map_map]
      apply List.map_congr_left
      intro h _
      show (fun h => h - 1/10) ((fun h => h - (m : ℚ)/10) h)
        = h - ((m + 1 : ℕ) : ℚ)/10
      push_cast
      ring
    refine ⟨rfl, ?_, ?_⟩
    · show (FoodModel.runState cfg inputs s0 m).hungerLevels.map (fun h => h - 1/10)
        = s0.hungerLevels.map (fun h => h - ((m + 1 : ℕ) : ℚ)/10)
      exact hhunger
    · intro _
      show ((FoodModel.runState cfg inputs s0 m).hungerLevels.map
          (fun h => h - 1/10)).map (fun h => if 0 < h then true else false)
        = (s0.hungerLevels.map (fun h => h - ((m + 1 : ℕ) : ℚ)/10)).map
            (fun h => if 0 < h then true else false)
      rw [hhunger]

/-- Amended claim C4: aliveness is recomputed from the hunger level at every
step, so a dead agent can revive when a food event feeds it; in a run in
which no food event ever spawns (and none exists initially), aliveness is
monotonic: an agent not alive after step k stays not alive at every later
step. -/
theorem foodModel_eventfree_alive_monotone (cfg : FoodConfig) (inputs : List StepInput)
    (s0 : FoodState) (i k k' : ℕ)
    (hev : s0.foodEvents = [])
    (hsp : ∀ inp ∈ inputs, FoodModel.spawnsNothing cfg inp)
    (hi : i < s0.hungerLevels.length)
    (h1 : 1 ≤ k) (hkk' : k ≤ k') (hk' : k' ≤ inputs.length)
    (hdead : (FoodModel.runState cfg inputs s0 k).alive.getD i false = false) :
    (FoodModel.runState cfg inputs s0 k').alive.getD i false = false := by
  obtain ⟨_, _, halivek⟩ := quietRun cfg inputs s0 hev hsp k (by omega)
  obtain ⟨_, _, halivek'⟩ := quietRun cfg inputs s0 hev hsp k' hk'
  rw [halivek h1] at hdead
  rw [halivek' (by omega)]
  rw [getD_map_of_lt _ _ i (by rw [List.length_map]; exact hi) 0 false] at hdead ⊢
  rw [getD_map_of_lt _ _ i hi 0 0] at hdead ⊢
  by_cases hpos : 0 < s0.hungerLevels.getD i 0 - (k : ℚ)/10
  · rw [if_pos hpos] at hdead
    exact absurd hdead (by simp)
  · push_neg at hpos
    have hc : (k : ℚ) ≤ (k' : ℚ) := by exact_mod_cast hkk'
    have hval : s0.hungerLevels.getD i 0 - (k' : ℚ)/10 ≤ 0 := by linarith
    rw [if_neg (not_lt.mpr hval)]

/-- Amended claim C5: hunger is not clamped to [0, maxFood].  In a run with
no food events it falls by exactly 1/10 every step, so it stays at most
`maxFood` but eventually drops below 0 (and a feeding at `maxFood` pushes it
above `maxFood`, see the counterexample for the upper side of the claim). -/
theorem foodModel_eventfree_hunger_bound (cfg : FoodConfig) (inputs : List StepInput)
    (i k : ℕ)
    (hsp : ∀ inp ∈ inputs, FoodModel.spawnsNothing cfg inp)
    (hk : k ≤ inputs.length) (hi : i < cfg.numberOfParticles) :
    (FoodModel.runState cfg inputs (FoodModel.initFoodState cfg []) k).hungerLevels.getD i 0
      = cfg.maxFood - (k : ℚ)/10 ∧
    (FoodModel.runState cfg inputs (FoodModel.initFoodState cfg []) k).hungerLevels.getD i 0
      ≤ cfg.maxFood := by
  obtain ⟨_, hh, _⟩ := quietRun cfg inputs (FoodModel.initFoodState cfg []) rfl hsp k hk
  have hval : (FoodModel.runState cfg inputs (FoodModel.initFoodState cfg []) k).hungerLevels.getD i 0
      = cfg.maxFood - (k : ℚ)/10 := by
    rw [hh]
    show ((List.replicate cfg.numberOfParticles cfg.maxFood).map
      (fun h => h - (k : ℚ)/10)).getD i 0 = _
    rw [getD_map_of_lt _ _ i (by rw [List.length_replicate]; exact hi) 0 0,
      getD_replicate_of_lt _ _ hi]
  refine ⟨hval, ?_⟩
  rw [hval]
  have : (0 : ℚ) ≤ (k : ℚ)/10 := by positivity
  linarith

/-- Amended claim C10: the run is a deterministic function of the
configuration, the initial state and both random draw streams.  Runs whose
spawn draws all fail the spawn test produce identical food states whatever
the draws are; reproducing a run requires fixing both the Python `random`
stream (event spawning) and the NumPy stream (noise, which enters this
subsystem through the position trace). -/
theorem foodModel_quiet_runs_agree (cfg : FoodConfig) :
    ∀ (inputs₁ inputs₂ : List StepInput) (s0 : FoodState),
      s0.foodEvents = [] →
      (∀ inp ∈ inputs₁, FoodModel.spawnsNothing cfg inp) →
      (∀ inp ∈ inputs₂, FoodModel.spawnsNothing cfg inp) →
      inputs₁.length = inputs₂.length →
      FoodModel.foodRun cfg inputs₁ s0 = FoodModel.foodRun cfg inputs₂ s0 := by
  intro inputs₁
  induction inputs₁ with
  | nil =>
    intro inputs₂ s0 _ _ _ hlen
    cases inputs₂ with
    | nil => rfl
    | cons b l₂ => simp at hlen
  | cons a l₁ ih =>
    intro inputs₂ s0 hev h1 h2 hlen
    cases inputs₂ with
    | nil => simp at hlen
    | cons b l₂ =>
      have hqa := foodLoopStep_quiet cfg a s0 (h1 a (List.mem_cons_self a l₁)) hev
      have hqb := foodLoopStep_quiet cfg b s0 (h2 b (List.mem_cons_self b l₂)) hev
      have hstep : FoodModel.foodLoopStep cfg a s0 = FoodModel.foodLoopStep cfg b s0 := by
        rw [hqa, hqb]
      have hrun : ∀ (l : List StepInput) (x : StepInput) (s : FoodState),
          FoodModel.foodRun cfg (x :: l) s = FoodModel.foodRun cfg l
            (FoodModel.foodLoopStep cfg x s) := by
        intro l x s
        rw [FoodModel.foodRun, List.foldl_cons]
        rfl
      rw [hrun, hrun, hstep]
      have hev' : (FoodModel.foodLoopStep cfg b s0).foodEvents = [] := by
        rw [hqb]
      exact ih l₂ (FoodModel.foodLoopStep cfg b s0) hev'
        (fun inp hinp => h1 inp (List.mem_cons_of_mem a hinp))
        (fun inp hinp => h2 inp (List.mem_cons_of_mem b hinp))
        (by simpa using hlen)

/-- Claim C7: after `handleFoodEvents`, an agent's speed for the step is the
nominal speed when its (post-feeding) hunger level has reached `maxFood`,
otherwise 0 when it was selected by at least one food event this step, and
the nominal speed when selected by none. -/
theorem handleFoodEvents_speed_rule (cfg : FoodConfig) (t : ℕ)
    (positions : List (ℚ × ℚ)) (speeds hungerLevels : List ℚ)
    (events : List EventState) (i : ℕ)
    (hp : positions.length = cfg.numberOfParticles)
    (hh : hungerLevels.length = cfg.numberOfParticles)
    (hi : i < cfg.numberOfParticles) :
    (FoodModel.handleFoodEvents cfg t positions speeds hungerLevels events).2.1.getD i 0 =
      if cfg.maxFood ≤
        (FoodModel.handleFoodEvents cfg t positions speeds hungerLevels events).2.2.getD i 0
      then cfg.speed
      else if (FoodModel.foodEventChecksFold cfg.numberOfParticles t positions events
          speeds hungerLevels).2.2.2.any (fun m => m.getD i false) then 0 else cfg.speed := by
  have hfl : (FoodModel.foodEventChecksFold cfg.numberOfParticles t positions events
      speeds hungerLevels).2.2.1.length = cfg.numberOfParticles :=
    fold_hunger_length _ _ _ _ _ _ hp hh
  have h22 : (FoodModel.handleFoodEvents cfg t positions speeds hungerLevels events).2.2
      = (FoodModel.foodEventChecksFold cfg.numberOfParticles t positions events
          speeds hungerLevels).2.2.1 := rfl
  have hrw : (FoodModel.handleFoodEvents cfg t positions speeds hungerLevels events).2.1
      = List.zipWith (fun h s => if cfg.maxFood ≤ h then cfg.speed else s)
          ((FoodModel.foodEventChecksFold cfg.numberOfParticles t positions events
            speeds hungerLevels).2.2.1)
          (if 0 < events.length then
            (List.range cfg.numberOfParticles).map
              (fun j => if (FoodModel.foodEventChecksFold cfg.numberOfParticles t positions
                  events speeds hungerLevels).2.2.2.any (fun m => m.getD j false)
                then 0 else cfg.speed)
          else List.replicate cfg.numberOfParticles cfg.speed) := rfl
  rw [h22, hrw]
  by_cases hev : 0 < events.length
  · rw [if_pos hev]
    rw [getD_zipWith_of_lt _ _ _ i (by omega)
      (by rw [List.length_map, List.length_range]; exact hi) 0 0 0]
    rw [getD_map_range_of_lt _ _ i hi 0]
  · rw [if_neg hev]
    have hnil : events = [] := List.length_eq_zero.mp (by omega)
    subst hnil
    have hmasks : (FoodModel.foodEventChecksFold cfg.numberOfParticles t positions
        ([] : List EventState) speeds hungerLevels).2.2.2 = [] := rfl
    rw [hmasks]
    rw [getD_zipWith_of_lt _ _ _ i (by omega)
      (by rw [List.length_replicate]; exact hi) 0 0 0]
    rw [getD_replicate_of_lt _ _ hi]
    simp only [List.any_nil, Bool.false_eq_true, if_false]

/-- Witness for claim C7: a concrete call.  One particle at the origin with
hunger level 0, one event on top of it: the particle is selected and fed to
hunger 1 = maxFood, so the satiation override restores the nominal speed. -/
theorem handleFoodEvents_speed_rule_witness :
    (([(0, 0)] : List (ℚ × ℚ)).length = cfgEx.numberOfParticles ∧
     ([0] : List ℚ).length = cfgEx.numberOfParticles ∧ 0 < cfgEx.numberOfParticles) ∧
    (FoodModel.handleFoodEvents cfgEx 0 [(0, 0)] [1] [0]
      [⟨0, 1, 1, (10, 10), (0, 0), 1, -1⟩]).2.1.getD 0 0 =
      if cfgEx.maxFood ≤ (FoodModel.handleFoodEvents cfgEx 0 [(0, 0)] [1] [0]
          [⟨0, 1, 1, (10, 10), (0, 0), 1, -1⟩]).2.2.getD 0 0
      then cfgEx.speed
      else if (FoodModel.foodEventChecksFold cfgEx.numberOfParticles 0 [(0, 0)]
          [⟨0, 1, 1, (10, 10), (0, 0), 1, -1⟩] [1] [0]).2.2.2.any
            (fun m => m.getD 0 false) then 0 else cfgEx.speed := by
  refine ⟨⟨by norm_num [cfgEx], by norm_num [cfgEx], by norm_num [cfgEx]⟩, ?_⟩
  exact handleFoodEvents_speed_rule cfgEx 0 [(0, 0)] [1] [0]
    [⟨0, 1, 1, (10, 10), (0, 0), 1, -1⟩] 0
    (by norm_num [cfgEx]) (by norm_num [cfgEx]) (by norm_num [cfgEx])

/-- Counterexample to claim C4 as stated: a dead agent revives.  With
`maxFood = 1`, a never-fed agent's hunger reaches 0 after 10 steps and the
agent is recorded not-alive; at step 10 a food event spawns on top of it,
feeds it (+1), the decay brings hunger to 9/10 > 0, and the aliveness flag,
recomputed from the hunger level, flips back to true. -/
theorem foodModel_dead_agent_revived :
    (FoodModel.runState cfgEx
      [inpQuiet, inpQuiet, inpQuiet, inpQuiet, inpQuiet, inpQuiet, inpQuiet,
       inpQuiet, inpQuiet, inpQuiet, inpSpawn]
      (FoodModel.initFoodState cfgEx []) 10).alive.getD 0 false = false ∧
    (FoodModel.runState cfgEx
      [inpQuiet, inpQuiet, inpQuiet, inpQuiet, inpQuiet, inpQuiet, inpQuiet,
       inpQuiet, inpQuiet, inpQuiet, inpSpawn]
      (FoodModel.initFoodState cfgEx []) 11).alive.getD 0 false = true := by
  constructor <;>
  norm_num [FoodModel.runState, FoodModel.foodRun, FoodModel.foodLoopStep,
    FoodModel.handleFoodEvents, FoodModel.updateFoodEvents,
    FoodModel.foodEventChecksFold, FoodEvent.check, FoodEvent.executeEvent,
    FoodEvent.selectAffected, ServiceVicsekHelper.distSqTo,
    ServiceVicsekHelper.wrapDiff, argsort, List.insertionSort,
    List.orderedInsert, List.range_succ, List.range_zero,
    FoodModel.initFoodState, cfgEx, inpQuiet, inpSpawn, List.replicate]

/-- Counterexample to claim C5 as stated: hunger leaves the interval [0, maxFood].
With `maxFood = 1` and no food event ever spawning, after 11 steps the
recorded hunger level is -1/10 < 0. -/
theorem foodModel_hunger_below_zero :
    (FoodModel.runState cfgEx
      [inpQuiet, inpQuiet, inpQuiet, inpQuiet, inpQuiet, inpQuiet, inpQuiet,
       inpQuiet, inpQuiet, inpQuiet, inpQuiet]
      (FoodModel.initFoodState cfgEx []) 11).hungerLevels.getD 0 0 < 0 ∧
    cfgEx.maxFood = 1 := by
  constructor
  · norm_num [FoodModel.runState, FoodModel.foodRun, FoodModel.foodLoopStep,
      FoodModel.handleFoodEvents, FoodModel.updateFoodEvents,
      FoodModel.foodEventChecksFold, FoodModel.initFoodState, cfgEx, inpQuiet,
      List.replicate]
  · rfl

/-- Counterexample to claim C10 as stated: the histories are not a function
of a single random source.  Two one-step runs from the same initial state
and configuration, with identical position traces (standing in for the
NumPy noise stream), differ only in the `random.random()` spawn draw of the
Python standard library generator, yet produce different hunger levels. -/
theorem foodModel_spawn_stream_matters :
    inpQuiet.positions = inpSpawn.positions ∧
    inpQuiet.r ≠ inpSpawn.r ∧
    (FoodModel.foodRun cfgEx [inpQuiet] (FoodModel.initFoodState cfgEx [])).hungerLevels
      ≠ (FoodModel.foodRun cfgEx [inpSpawn] (FoodModel.initFoodState cfgEx [])).hungerLevels := by
  refine ⟨rfl, by norm_num [inpQuiet, inpSpawn], ?_⟩
  norm_num [FoodModel.foodRun, FoodModel.foodLoopStep,
    FoodModel.handleFoodEvents, FoodModel.updateFoodEvents,
    FoodModel.foodEventChecksFold, FoodEvent.check, FoodEvent.executeEvent,
    FoodEvent.selectAffected, ServiceVicsekHelper.distSqTo,
    ServiceVicsekHelper.wrapDiff, argsort, List.insertionSort,
    List.orderedInsert, List.range_succ, List.range_zero,
    FoodModel.initFoodState, cfgEx, inpQuiet, inpSpawn, List.replicate]

/-- Witness for the amended claim C4: in the 11-quiet-step run, the agent is
not alive after step 10 and, with no event ever spawning, remains not alive
after step 11. -/
theorem foodModel_eventfree_alive_monotone_witness :
    ((FoodModel.runState cfgEx
      [inpQuiet, inpQuiet, inpQuiet, inpQuiet, inpQuiet, inpQuiet, inpQuiet,
       inpQuiet, inpQuiet, inpQuiet, inpQuiet]
      (FoodModel.initFoodState cfgEx []) 10).alive.getD 0 false = false) ∧
    ((FoodModel.runState cfgEx
      [inpQuiet, inpQuiet, inpQuiet, inpQuiet, inpQuiet, inpQuiet, inpQuiet,
       inpQuiet, inpQuiet, inpQuiet, inpQuiet]
      (FoodModel.initFoodState cfgEx []) 11).alive.getD 0 false = false) := by
  have hdead : (FoodModel.runState cfgEx
      [inpQuiet, inpQuiet, inpQuiet, inpQuiet, inpQuiet, inpQuiet, inpQuiet,
       inpQuiet, inpQuiet, inpQuiet, inpQuiet]
      (FoodModel.initFoodState cfgEx []) 10).alive.getD 0 false = false := by
    norm_num [FoodModel.runState, FoodModel.foodRun, FoodModel.foodLoopStep,
      FoodModel.handleFoodEvents, FoodModel.updateFoodEvents,
      FoodModel.foodEventChecksFold, FoodModel.initFoodState, cfgEx, inpQuiet,
      List.replicate]
  refine ⟨hdead, ?_⟩
  exact foodModel_eventfree_alive_monotone cfgEx _ _ 0 10 11 rfl
    (by intro inp hinp
        simp only [List.mem_cons, List.not_mem_nil, or_false, or_self] at hinp
        subst hinp
        norm_num [FoodModel.spawnsNothing, cfgEx, inpQuiet])
    (by norm_num [FoodModel.initFoodState, cfgEx])
    (by norm_num) (by norm_num) (by norm_num) hdead

/-- Witness for the amended claim C5: one quiet step from the initial state
leaves the hunger level at maxFood - 1/10, which is at most maxFood. -/
theorem foodModel_eventfree_hunger_bound_witness :
    ((FoodModel.runState cfgEx [inpQuiet] (FoodModel.initFoodState cfgEx [])
        1).hungerLevels.getD 0 0 = cfgEx.maxFood - (1 : ℚ)/10) ∧
    ((FoodModel.runState cfgEx [inpQuiet] (FoodModel.initFoodState cfgEx [])
        1).hungerLevels.getD 0 0 ≤ cfgEx.maxFood) := by
  have h := foodModel_eventfree_hunger_bound cfgEx [inpQuiet] 0 1
    (by intro inp hinp
        simp only [List.mem_cons, List.not_mem_nil, or_false] at hinp
        subst hinp
        norm_num [FoodModel.spawnsNothing, cfgEx, inpQuiet])
    (by norm_num) (by norm_num [cfgEx])
  exact ⟨by rw [h.1]; norm_num, h.2⟩

/-- Witness for claim C6: a three-step run in which the agent is never fed;
its hunger drops by exactly 3/10. -/
theorem foodModel_unfed_hunger_decay_witness :
    ((∀ k, k < 3 → FoodModel.stepAffected cfgEx
        ([inpQuiet, inpQuiet, inpQuiet].getD k dummyStepInput)
        (FoodModel.runState cfgEx [inpQuiet, inpQuiet, inpQuiet]
          (FoodModel.initFoodState cfgEx []) k) 0 = false)) ∧
    (FoodModel.runState cfgEx [inpQuiet, inpQuiet, inpQuiet]
      (FoodModel.initFoodState cfgEx []) 3).hungerLevels.getD 0 0
      = (FoodModel.initFoodState cfgEx []).hungerLevels.getD 0 0 - (3 : ℚ)/10 := by
  have hunf : ∀ k, k < 3 → FoodModel.stepAffected cfgEx
      ([inpQuiet, inpQuiet, inpQuiet].getD k dummyStepInput)
      (FoodModel.runState cfgEx [inpQuiet, inpQuiet, inpQuiet]
        (FoodModel.initFoodState cfgEx []) k) 0 = false := by
    intro k hk
    interval_cases k <;>
    norm_num [FoodModel.stepAffected, FoodModel.stepMasks, FoodModel.runState,
      FoodModel.foodRun, FoodModel.foodLoopStep, FoodModel.handleFoodEvents,
      FoodModel.updateFoodEvents, FoodModel.foodEventChecksFold,
      FoodModel.initFoodState, cfgEx, inpQuiet, List.replicate]
  refine ⟨hunf, ?_⟩
  exact (foodModel_unfed_hunger_decay cfgEx [inpQuiet, inpQuiet, inpQuiet]
    (FoodModel.initFoodState cfgEx []) 0 3 (by norm_num)
    (by norm_num [FoodModel.initFoodState, cfgEx])
    (by intro inp hinp
        simp only [List.mem_cons, List.not_mem_nil, or_false, or_self] at hinp
        subst hinp
        norm_num [cfgEx, inpQuiet])
    (by norm_num [cfgEx]) hunf).1

/-- Witness for the amended claim C10: two one-step runs whose spawn draws
differ (3/4 versus 1) but both stay at or above the appearance probability
produce identical food states. -/
theorem foodModel_quiet_runs_agree_witness :
    FoodModel.foodRun cfgEx [inpQuiet] (FoodModel.initFoodState cfgEx [])
      = FoodModel.foodRun cfgEx [⟨3/4, 1/2, 1/2, [(0, 0)]⟩]
          (FoodModel.initFoodState cfgEx []) := by
  exact foodModel_quiet_runs_agree cfgEx [inpQuiet] [⟨3/4, 1/2, 1/2, [(0, 0)]⟩]
    (FoodModel.initFoodState cfgEx []) rfl
    (by intro inp hinp
        simp only [List.mem_cons, List.not_mem_nil, or_false] at hinp
        subst hinp
        norm_num [FoodModel.spawnsNothing, cfgEx, inpQuiet])
    (by intro inp hinp
        simp only [List.mem_cons, List.not_mem_nil, or_false] at hinp
        subst hinp
        norm_num [FoodModel.spawnsNothing, cfgEx])
    rfl

theorem pythonMod_zero (m : ℝ) : ServiceVision.pythonMod 0 m = 0 := by
  simp [ServiceVision.pythonMod]

theorem normaliseAngles_of_nonneg_le (a : ℝ) (h0 : 0 ≤ a) (h2 : a ≤ 2*Real.pi) :
    ServiceVision.normaliseAngles a = a := by
  simp only [ServiceVision.normaliseAngles]
  rw [if_neg (not_lt.mpr h0), if_neg (not_lt.mpr h2)]

theorem normaliseAngles_of_neg (a : ℝ) (hneg : a < 0)
    (h2 : 2*Real.pi - |a| ≤ 2*Real.pi) :
    ServiceVision.normaliseAngles a = 2*Real.pi - |a| := by
  simp only [ServiceVision.normaliseAngles]
  rw [if_pos hneg, if_neg (not_lt.mpr h2)]

/-- Claim C8 is refuted by the code: the field-of-view test accepts a
candidate that is directly behind the observer.  Observer 0 sits at the
origin with heading angle 0 and fov pi/2 (angular window from 7*pi/4 to
pi/4 after normalisation); candidate 1 sits at (-1, 0), at signed bearing
pi, far outside the window.  Because `np.arctan(dy, dx)` is the one-argument
arctangent with `dx` as its out buffer, the code computes the angle
arctan(0) = 0 and accepts the candidate, while the intended signed-bearing
(arctan2) test rejects it. -/
theorem serviceVision_fov_accepts_agent_behind :
    ServiceVision.isInFieldOfVision [(0, 0), (-1, 0)]
      [(ServiceVision.determineMinMaxAngleOfVision (Real.pi/2) 0).1,
       (ServiceVision.determineMinMaxAngleOfVision (Real.pi/2) 0).1]
      [(ServiceVision.determineMinMaxAngleOfVision (Real.pi/2) 0).2,
       (ServiceVision.determineMinMaxAngleOfVision (Real.pi/2) 0).2] 0 1 ∧
    ¬ ServiceVision.signedBearingInView [(0, 0), (-1, 0)] 0 (Real.pi/2) 0 1 := by
  have hpi := Real.pi_pos
  have hn0 : ServiceVision.normaliseAngles 0 = 0 :=
    normaliseAngles_of_nonneg_le 0 le_rfl (by linarith)
  have habs : |(0 : ℝ) - Real.pi/2/2| = Real.pi/2/2 := by
    rw [zero_sub, abs_neg, abs_of_pos (by linarith)]
  have hmin : (ServiceVision.determineMinMaxAngleOfVision (Real.pi/2) 0).1
      = 2*Real.pi - Real.pi/2/2 := by
    simp only [ServiceVision.determineMinMaxAngleOfVision, hn0]
    rw [normaliseAngles_of_neg _ (by linarith) (by rw [habs]; linarith), habs]
  have hmax : (ServiceVision.determineMinMaxAngleOfVision (Real.pi/2) 0).2
      = Real.pi/2/2 := by
    simp only [ServiceVision.determineMinMaxAngleOfVision, hn0]
    rw [zero_add, normaliseAngles_of_nonneg_le _ (by linarith) (by linarith)]
  constructor
  · have hgd1 : ([((0:ℝ), (0:ℝ)), (-1, 0)]).getD 1 (0, 0) = (-1, 0) := rfl
    have hgd0 : ([((0:ℝ), (0:ℝ)), (-1, 0)]).getD 0 (0, 0) = (0, 0) := rfl
    have hgmin : ([(ServiceVision.determineMinMaxAngleOfVision (Real.pi/2) 0).1,
        (ServiceVision.determineMinMaxAngleOfVision (Real.pi/2) 0).1]).getD 1 0
        = (ServiceVision.determineMinMaxAngleOfVision (Real.pi/2) 0).1 := rfl
    have hgmax : ([(ServiceVision.determineMinMaxAngleOfVision (Real.pi/2) 0).2,
        (ServiceVision.determineMinMaxAngleOfVision (Real.pi/2) 0).2]).getD 1 0
        = (ServiceVision.determineMinMaxAngleOfVision (Real.pi/2) 0).2 := rfl
    simp only [ServiceVision.isInFieldOfVision]
    rw [hgd1, hgd0, hgmin, hgmax, hmin, hmax]
    rw [show ((-1 : ℝ), (0 : ℝ)).2 - ((0 : ℝ), (0 : ℝ)).2 = 0 by norm_num,
      Real.arctan_zero, pythonMod_zero]
    right
    constructor
    · linarith
    · right
      linarith
  · have hgd1 : ([((0:ℝ), (0:ℝ)), (-1, 0)]).getD 1 (0, 0) = (-1, 0) := rfl
    have hgd0 : ([((0:ℝ), (0:ℝ)), (-1, 0)]).getD 0 (0, 0) = (0, 0) := rfl
    simp only [ServiceVision.signedBearingInView]
    rw [hgd1, hgd0]
    rw [show (⟨((-1 : ℝ), (0 : ℝ)).1 - ((0 : ℝ), (0 : ℝ)).1,
        ((-1 : ℝ), (0 : ℝ)).2 - ((0 : ℝ), (0 : ℝ)).2⟩ : ℂ) = (-1 : ℂ) by
      apply Complex.ext <;> simp]
    rw [Complex.arg_neg_one]
    have hmod : ServiceVision.pythonMod (Real.pi - 0) (2*Real.pi) = Real.pi := by
      rw [ServiceVision.pythonMod, sub_zero]
      rw [show Real.pi / (2*Real.pi) = 1/2 by
        rw [div_eq_iff (by positivity : (2:ℝ) * Real.pi ≠ 0)]; ring]
      rw [show ⌊(1:ℝ)/2⌋ = 0 by rw [Int.floor_eq_iff]; norm_num]
      norm_num
    rw [hmod]
    rintro (h | h) <;> linarith

/-- Counterexample to claim C9 as stated: the candidate test of
`get_visible_agents` uses the raw, non-periodic Euclidean distance, not the
minimum-image distance.  On a 10 by 10 torus with view distance 2, agents at
(1/2, 0) and (19/2, 0) are minimum-image distance 1 apart (squared distance
1 ≤ 4), but the code computes the raw distance 9 and rejects the pair. -/
theorem getVisibleAgents_ignores_wraparound :
    ¬ ServiceVision.gvaInFov [((1:ℝ)/2, 0), (19/2, 0)] [0, 0] (2*Real.pi) 2 0 1 ∧
    ServiceVision.minImageDistSq (10, 10) ((1:ℝ)/2, 0) (19/2, 0) ≤ 2^2 := by
  constructor
  · have hgd1 : ([(((1:ℝ))/2, (0:ℝ)), (19/2, 0)]).getD 1 (0, 0) = (19/2, 0) := rfl
    have hgd0 : ([(((1:ℝ))/2, (0:ℝ)), (19/2, 0)]).getD 0 (0, 0) = ((1:ℝ)/2, 0) := rfl
    simp only [ServiceVision.gvaInFov]
    rw [hgd1, hgd0]
    intro h
    have hd := h.2.2
    have hsq : ((19:ℝ)/2 - 1/2) ^ 2 + ((0:ℝ) - 0) ^ 2 = 9^2 := by norm_num
    rw [show ((19:ℝ)/2, (0:ℝ)).1 - ((1:ℝ)/2, (0:ℝ)).1 = (19:ℝ)/2 - 1/2 from rfl,
      show ((19:ℝ)/2, (0:ℝ)).2 - ((1:ℝ)/2, (0:ℝ)).2 = (0:ℝ) - 0 from rfl] at hd
    rw [hsq, Real.sqrt_sq (by norm_num : (0:ℝ) ≤ 9)] at hd
    linarith
  · rw [ServiceVision.minImageDistSq]
    have hr : round ((((1:ℝ)/2, (0:ℝ)).1 - ((19:ℝ)/2, (0:ℝ)).1) / ((10:ℝ), (10:ℝ)).1)
        = (-1 : ℤ) := by
      rw [show (((1:ℝ)/2, (0:ℝ)).1 - ((19:ℝ)/2, (0:ℝ)).1) / ((10:ℝ), (10:ℝ)).1
          = -(9/10) from by norm_num]
      exact round_eval _ _ (by norm_num) (by norm_num)
    have hr2 : round ((((1:ℝ)/2, (0:ℝ)).2 - ((19:ℝ)/2, (0:ℝ)).2) / ((10:ℝ), (10:ℝ)).2)
        = (0 : ℤ) := by
      rw [show (((1:ℝ)/2, (0:ℝ)).2 - ((19:ℝ)/2, (0:ℝ)).2) / ((10:ℝ), (10:ℝ)).2
          = 0 from by norm_num]
      exact round_zero
    rw [hr, hr2]
    norm_num

/-- Amended claim C9: with a full field of view, membership in the candidate
set of `get_visible_agents` is exactly the raw squared-Euclidean-distance
test `0 < d^2 ≤ view_distance^2`; no minimum-image wrapping is applied. -/
theorem gvaInFov_iff_rawDistSq (positions : List (ℝ × ℝ)) (orientations : List ℝ)
    (viewDistance : ℝ) (i j : ℕ) (hvd : 0 ≤ viewDistance) :
    (ServiceVision.gvaInFov positions orientations (2*Real.pi) viewDistance i j ↔
      (0 < ServiceVision.rawDistSq positions i j ∧
        ServiceVision.rawDistSq positions i j ≤ viewDistance^2)) := by
  have hraw : 0 ≤ ServiceVision.rawDistSq positions i j := by
    rw [ServiceVision.rawDistSq]
    positivity
  simp only [ServiceVision.gvaInFov, ServiceVision.rawDistSq] at hraw ⊢
  constructor
  · intro h
    obtain ⟨_, hpos, hle⟩ := h
    refine ⟨Real.sqrt_pos.mp hpos, ?_⟩
    calc ((positions.getD j (0, 0)).1 - (positions.getD i (0, 0)).1) ^ 2 +
          ((positions.getD j (0, 0)).2 - (positions.getD i (0, 0)).2) ^ 2
        = Real.sqrt (((positions.getD j (0, 0)).1 - (positions.getD i (0, 0)).1) ^ 2 +
            ((positions.getD j (0, 0)).2 - (positions.getD i (0, 0)).2) ^ 2) ^ 2 :=
          (Real.sq_sqrt hraw).symm
      _ ≤ viewDistance ^ 2 := by
          apply pow_le_pow_left₀ (Real.sqrt_nonneg _) hle
  · intro h
    obtain ⟨hpos, hle⟩ := h
    refine ⟨?_, Real.sqrt_pos.mpr hpos, ?_⟩
    · have := Real.arccos_le_pi (min 1 (max (-1)
        (((positions.getD j (0, 0)).1 - (positions.getD i (0, 0)).1) /
            max (1 / 10 ^ 8) (Real.sqrt (((positions.getD j (0, 0)).1 - (positions.getD i (0, 0)).1) ^ 2 + ((positions.getD j (0, 0)).2 - (positions.getD i (0, 0)).2) ^ 2)) *
            Real.cos (orientations.getD i 0) +
          ((positions.getD j (0, 0)).2 - (positions.getD i (0, 0)).2) /
            max (1 / 10 ^ 8) (Real.sqrt (((positions.getD j (0, 0)).1 - (positions.getD i (0, 0)).1) ^ 2 + ((positions.getD j (0, 0)).2 - (positions.getD i (0, 0)).2) ^ 2)) *
            Real.sin (orientations.getD i 0))))
      linarith
    · calc Real.sqrt (((positions.getD j (0, 0)).1 - (positions.getD i (0, 0)).1) ^ 2 +
            ((positions.getD j (0, 0)).2 - (positions.getD i (0, 0)).2) ^ 2)
          ≤ Real.sqrt (viewDistance ^ 2) := Real.sqrt_le_sqrt hle
        _ = viewDistance := Real.sqrt_sq hvd

/-- Witness for the amended claim C9: agents at (0, 0) and (1, 0) with view
distance 1; the raw squared distance is 1, so the pair passes the test. -/
theorem gvaInFov_iff_rawDistSq_witness :
    (0 : ℝ) ≤ 1 ∧
    (ServiceVision.gvaInFov [((0:ℝ), (0:ℝ)), (1, 0)] [0] (2*Real.pi) 1 0 1 ↔
      (0 < ServiceVision.rawDistSq [((0:ℝ), (0:ℝ)), (1, 0)] 0 1 ∧
        ServiceVision.rawDistSq [((0:ℝ), (0:ℝ)), (1, 0)] 0 1 ≤ 1^2)) :=
  ⟨zero_le_one, gvaInFov_iff_rawDistSq [((0:ℝ), (0:ℝ)), (1, 0)] [0] 1 0 1 zero_le_one⟩
